import Mathlib

/-!
Verification of the TaskTrackr task-tracking utility (tasktrackr.py).

The development shallowly embeds the data model and the operations of the
task store and the reminder poller: timestamps become `Nat`, Python strings
become `String` with an explicit model `pstrip` of `str.strip`, the JSON
file becomes an inductive `FileContent`, and each method of `Task` and
`TaskManager` becomes a Lean function on explicit state.
-/

namespace TaskTrackr

/-- Whitespace test used by Python str.strip with no argument (ASCII part of
the character class). -/
def wsp (c : Char) : Bool :=
  c = ' ' || c = '\t' || c = '\n' || c = '\r' || c = '\x0b' || c = '\x0c'

/-- Python str.strip on a character list: drop whitespace from both ends. -/
def stripChars (l : List Char) : List Char :=
  List.rdropWhile wsp (List.dropWhile wsp l)

/-- Python str.strip on a string. -/
def pstrip (s : String) : String :=
  (stripChars s.toList).asString

/-- Lowercasing of one character (ASCII part of Python str.lower). -/
def lowerChar (c : Char) : Char :=
  if 'A' ≤ c ∧ c ≤ 'Z' then Char.ofNat (c.toNat + 32) else c

/-- Python str.lower on a string (ASCII model). -/
def plower (s : String) : String :=
  (s.toList.map lowerChar).asString

/-- First normalization line of Task.__init__ (tasktrackr.py line 22):
`priority.lower() if priority else "medium"`. -/
def lowerOrDefault (priority : String) : String :=
  if priority = "" then "medium" else plower priority

/-- Priority normalization performed by Task.__init__ (tasktrackr.py lines
22-24): lowercase when the value is truthy, default "medium" when falsy, then
clamp to the three-element enum. -/
def normPriority (priority : String) : String :=
  if lowerOrDefault priority = "low" ∨ lowerOrDefault priority = "medium" ∨
      lowerOrDefault priority = "high" then
    lowerOrDefault priority
  else "medium"

/-- An in-memory task: the eight attributes set by Task.__init__
(tasktrackr.py lines 14-28), with timestamps as `Nat`. -/
structure Task where
  title : String
  description : String
  due_date : Option Nat
  priority : String
  reminder : Bool
  reminder_time : Option Nat
  completed : Bool
  created_at : Nat
  deriving DecidableEq, Repr

/-- Task.__init__ (tasktrackr.py lines 15-28): rejects a title that is empty
after stripping (ValueError, modelled as `none`), strips title and
description, normalizes the priority, coerces the reminder flag, sets
completed to false and created_at to the construction time `now`. -/
def Task.init (title description : String) (due_date : Option Nat)
    (priority : String) (reminder : Bool) (reminder_time : Option Nat)
    (now : Nat) : Option Task :=
  if pstrip title = "" then none
  else some
    { title := pstrip title
      description := pstrip description
      due_date := due_date
      priority := normPriority priority
      reminder := reminder
      reminder_time := reminder_time
      completed := false
      created_at := now }

/-- A JSON value stored under a timestamp key of a record: null, a valid
ISO-8601 string encoding the time `t`, or a non-empty string that
datetime.fromisoformat rejects with ValueError. -/
inductive JTime where
  | jnull
  | jiso (t : Nat)
  | jbad
  deriving DecidableEq, Repr

/-- One JSON object of the persisted array. A field is `none` exactly when
the key is missing from the object. -/
structure TaskRecord where
  title : Option String := none
  description : Option String := none
  due_date : Option JTime := none
  priority : Option String := none
  reminder : Option Bool := none
  reminder_time : Option JTime := none
  completed : Option Bool := none
  created_at : Option JTime := none
  deriving DecidableEq, Repr

/-- Task.to_dict (tasktrackr.py lines 30-40): every key is written; the two
optional timestamps serialize to null when absent. -/
def Task.to_dict (t : Task) : TaskRecord :=
  { title := some t.title
    description := some t.description
    due_date := some (match t.due_date with | some d => .jiso d | none => .jnull)
    priority := some t.priority
    reminder := some t.reminder
    reminder_time := some (match t.reminder_time with | some d => .jiso d | none => .jnull)
    completed := some t.completed
    created_at := some (.jiso t.created_at) }

/-- Outcome of Task.from_dict: a task, `skip` for a caught KeyError or
ValueError (the method returns None and the record is skipped), or `crash`
for an uncaught exception (TypeError from fromisoformat(None)) that
propagates to the caller. -/
inductive FromDictResult where
  | ok (t : Task)
  | skip
  | crash
  deriving DecidableEq, Repr

/-- True exactly on the `crash` outcome. -/
def FromDictResult.isCrash : FromDictResult → Bool
  | .crash => true
  | _ => false

/-- The task of an `ok` outcome, `none` otherwise. -/
def FromDictResult.getOk : FromDictResult → Option Task
  | .ok t => some t
  | _ => none

/-- Evaluation of the pattern `if data.get(key): x = fromisoformat(data[key])`
(tasktrackr.py lines 51-54): a missing key or null is falsy and leaves the
field at None; an unparseable string raises ValueError. -/
def parseOptTime : Option JTime → Except Unit (Option Nat)
  | none => .ok none
  | some .jnull => .ok none
  | some (.jiso t) => .ok (some t)
  | some .jbad => .error ()

/-- Task.from_dict (tasktrackr.py lines 42-60): constructs the task from
title, description, priority and reminder, then overwrites due_date,
reminder_time, completed and created_at from the record. KeyError (missing
title or created_at) and ValueError (empty title, bad timestamp string) are
caught and yield `skip`; fromisoformat(None) on a null created_at raises an
uncaught TypeError, modelled as `crash`. -/
def Task.from_dict (data : TaskRecord) : FromDictResult :=
  match data.title with
  | none => .skip
  | some title =>
    match Task.init title (data.description.getD "") none
        (data.priority.getD "medium") (data.reminder.getD false) none 0 with
    | none => .skip
    | some t0 =>
      match parseOptTime data.due_date with
      | .error _ => .skip
      | .ok dd =>
        match parseOptTime data.reminder_time with
        | .error _ => .skip
        | .ok rt =>
          match data.created_at with
          | none => .skip
          | some .jnull => .crash
          | some .jbad => .skip
          | some (.jiso ca) =>
            .ok { t0 with
                  due_date := dd
                  reminder_time := rt
                  completed := data.completed.getD false
                  created_at := ca }

/-- Parsed shape of the persisted tasks.json content: text that is not valid
JSON (json.load raises JSONDecodeError), valid JSON whose iteration or
per-element access raises an uncaught exception (not an array of objects), or
an array of record objects. -/
inductive FileContent where
  | malformed
  | nonArray
  | records (rs : List TaskRecord)
  deriving DecidableEq, Repr

/-- TaskManager state: the in-memory task list and the persisted file, which
is `none` when tasks.json does not exist. -/
structure TaskManager where
  tasks : List Task
  file : Option FileContent
  deriving DecidableEq, Repr

/-- TaskManager.load_tasks (tasktrackr.py lines 69-84), returning the new
in-memory list and the resulting file state. A missing file changes nothing;
JSONDecodeError prints an error and calls save_tasks, rewriting the file from
the current in-memory list; any other exception prints and resets the list to
[] leaving the file alone; otherwise each record is deserialized and the
skipped ones are dropped. -/
def load_tasks (tasks : List Task) (file : Option FileContent) :
    List Task × Option FileContent :=
  match file with
  | none => (tasks, none)
  | some .malformed => (tasks, some (.records (tasks.map Task.to_dict)))
  | some .nonArray => ([], some .nonArray)
  | some (.records rs) =>
    if rs.any fun r => (Task.from_dict r).isCrash then ([], some (.records rs))
    else (rs.filterMap fun r => (Task.from_dict r).getOk, some (.records rs))

/-- TaskManager.save_tasks (tasktrackr.py lines 86-91): rewrite the file with
the serialization of the full in-memory list. -/
def save_tasks (m : TaskManager) : TaskManager :=
  { m with file := some (.records (m.tasks.map Task.to_dict)) }

/-- TaskManager.add_task (tasktrackr.py lines 93-100): append, persist,
return success. -/
def add_task (m : TaskManager) (t : Task) : TaskManager × Bool :=
  (save_tasks { m with tasks := m.tasks ++ [t] }, true)

/-- TaskManager.remove_task (tasktrackr.py lines 102-111): delete at the
index when 0 <= index < len(tasks) and persist, else return false. -/
def remove_task (m : TaskManager) (index : Int) : TaskManager × Bool :=
  if 0 ≤ index ∧ index < (m.tasks.length : Int) then
    (save_tasks { m with tasks := m.tasks.eraseIdx index.toNat }, true)
  else (m, false)

/-- In-place flip of the completed flag of the element at position i,
mirroring `self.tasks[index].completed = not self.tasks[index].completed`. -/
def toggleAt : List Task → Nat → List Task
  | [], _ => []
  | t :: ts, 0 => { t with completed := !t.completed } :: ts
  | t :: ts, n + 1 => t :: toggleAt ts n

/-- TaskManager.toggle_task_completion (tasktrackr.py lines 113-122): flip
the flag at the index when in range and persist, else return false. -/
def toggle_task_completion (m : TaskManager) (index : Int) : TaskManager × Bool :=
  if 0 ≤ index ∧ index < (m.tasks.length : Int) then
    (save_tasks { m with tasks := toggleAt m.tasks index.toNat }, true)
  else (m, false)

/-- TaskManager.get_tasks (tasktrackr.py lines 124-131). -/
def get_tasks (m : TaskManager) (show_completed : Bool) : List Task :=
  if show_completed then m.tasks else m.tasks.filter fun t => !t.completed

/-- TaskManager.check_reminders (tasktrackr.py lines 133-149): the tasks a
poll at time `now` notifies about, given the running flag. The condition is
reminder and reminder_time (truthiness: the key holds a datetime) and not
completed and reminder_time <= now. -/
def check_reminders (running : Bool) (tasks : List Task) (now : Nat) : List Task :=
  if running then
    tasks.filter fun t =>
      t.reminder && t.reminder_time.isSome && !t.completed &&
        decide (t.reminder_time.getD 0 ≤ now)
  else []

/-- The data-model invariant of constructed tasks: the title and description
are stripped, the title is non-empty, and the priority is one of the three
enum values. Every task produced by Task.init or Task.from_dict satisfies
it. -/
def Task.WF (t : Task) : Prop :=
  pstrip t.title = t.title ∧ t.title ≠ "" ∧ pstrip t.description = t.description ∧
    (t.priority = "low" ∨ t.priority = "medium" ∨ t.priority = "high")

instance : DecidablePred Task.WF := fun t => by
  unfold Task.WF; infer_instance

/-- A task is valid when some call to the constructor produces it. -/
def ValidTask (t : Task) : Prop :=
  ∃ title description due_date priority reminder reminder_time now,
    Task.init title description due_date priority reminder reminder_time now = some t

/-- The in-memory title invariant of the store: every task's title is
non-empty after stripping. -/
def TitleInv (l : List Task) : Prop :=
  ∀ t ∈ l, pstrip t.title ≠ ""

instance : DecidablePred TitleInv := fun l => by
  unfold TitleInv
  infer_instance

theorem dropWhile_head_not (p : Char → Bool) (l : List Char) :
    ∀ c cs, l.dropWhile p = c :: cs → p c = false := by
  induction l with
  | nil => intro c cs h; simp [List.dropWhile] at h
  | cons a t ih =>
    intro c cs h
    rw [List.dropWhile_cons] at h
    by_cases hp : p a = true
    · exact ih c cs (by simpa [hp] using h)
    · simp only [hp, if_false] at h
      rw [← (List.cons.injEq a t c cs).mp h |>.1]
      simpa using hp

theorem stripChars_head_not (l : List Char) (c : Char) (cs : List Char)
    (h : stripChars l = c :: cs) : wsp c = false := by
  obtain ⟨tl, htl⟩ := List.rdropWhile_prefix wsp (List.dropWhile wsp l)
  unfold stripChars at h
  exact dropWhile_head_not wsp l c (cs ++ tl) (by rw [← htl, h, List.cons_append])

theorem stripChars_idem (l : List Char) : stripChars (stripChars l) = stripChars l := by
  have h1 : List.dropWhile wsp (stripChars l) = stripChars l := by
    cases hb : stripChars l with
    | nil => rfl
    | cons c cs =>
      have hc : wsp c = false := stripChars_head_not l c cs hb
      simp [List.dropWhile_cons, hc]
  show List.rdropWhile wsp (List.dropWhile wsp (stripChars l)) = stripChars l
  rw [h1]
  unfold stripChars
  exact List.rdropWhile_idempotent wsp _

theorem pstrip_idem (s : String) : pstrip (pstrip s) = pstrip s := by
  unfold pstrip
  rw [List.toList_asString, stripChars_idem]

theorem normPriority_mem (p : String) :
    normPriority p = "low" ∨ normPriority p = "medium" ∨ normPriority p = "high" := by
  unfold normPriority
  split
  · assumption
  · right; left; rfl

theorem normPriority_fixed (p : String)
    (h : p = "low" ∨ p = "medium" ∨ p = "high") : normPriority p = p := by
  rcases h with h | h | h <;> subst h <;> decide

theorem Task.init_wf (title description : String) (dd : Option Nat) (p : String)
    (rem : Bool) (rt : Option Nat) (now : Nat) (t : Task)
    (h : Task.init title description dd p rem rt now = some t) : t.WF := by
  unfold Task.init at h
  split at h
  · exact absurd h (by simp)
  · rename_i hne
    simp only [Option.some.injEq] at h
    subst h
    exact ⟨pstrip_idem title, hne, pstrip_idem description, normPriority_mem p⟩

theorem Task.from_dict_wf (r : TaskRecord) (t : Task)
    (h : Task.from_dict r = .ok t) : t.WF := by
  unfold Task.from_dict at h
  split at h
  · exact absurd h (by simp)
  · rename_i title hti
    split at h
    · exact absurd h (by simp)
    · rename_i t0 hinit
      split at h
      · exact absurd h (by simp)
      · split at h
        · exact absurd h (by simp)
        · split at h
          · exact absurd h (by simp)
          · exact absurd h (by simp)
          · exact absurd h (by simp)
          · simp only [FromDictResult.ok.injEq] at h
            subst h
            obtain ⟨w1, w2, w3, w4⟩ := Task.init_wf _ _ _ _ _ _ _ _ hinit
            exact ⟨w1, w2, w3, w4⟩

theorem from_dict_to_dict (t : Task) (h : t.WF) : Task.from_dict t.to_dict = .ok t := by
  obtain ⟨h1, h2, h3, h4⟩ := h
  cases t with
  | mk title description due_date priority reminder reminder_time completed created_at =>
    simp only at h1 h2 h3 h4
    cases due_date <;> cases reminder_time <;>
      simp [Task.to_dict, Task.from_dict, Task.init, parseOptTime, h1, h2, h3,
        normPriority_fixed priority h4]

theorem getOk_ok (t : Task) : (FromDictResult.ok t).getOk = some t := rfl

theorem isCrash_ok (t : Task) : (FromDictResult.ok t).isCrash = false := rfl

theorem filterMap_getOk_map_to_dict (l : List Task) (h : ∀ u ∈ l, u.WF) :
    (l.map Task.to_dict).filterMap (fun r => (Task.from_dict r).getOk) = l := by
  induction l with
  | nil => rfl
  | cons a t ih =>
    have ha := from_dict_to_dict a (h a (List.mem_cons_self a t))
    simp only [List.map_cons, List.filterMap_cons, ha, getOk_ok]
    rw [ih fun u hu => h u (List.mem_cons_of_mem a hu)]

theorem no_crash_map_to_dict (l : List Task) (h : ∀ u ∈ l, u.WF) :
    ((l.map Task.to_dict).any fun r => (Task.from_dict r).isCrash) = false := by
  rw [List.any_eq_false]
  intro r hr
  obtain ⟨u, hu, rfl⟩ := List.mem_map.mp hr
  rw [from_dict_to_dict u (h u hu)]
  simp [FromDictResult.isCrash]

theorem load_tasks_of_wf (pre l : List Task) (h : ∀ u ∈ l, u.WF) :
    load_tasks pre (some (.records (l.map Task.to_dict)))
      = (l, some (.records (l.map Task.to_dict))) := by
  show (if ((l.map Task.to_dict).any fun r => (Task.from_dict r).isCrash) = true
      then _ else _) = _
  rw [if_neg (by rw [no_crash_map_to_dict l h]; simp)]
  rw [filterMap_getOk_map_to_dict l h]

theorem toggleAt_length (l : List Task) (i : Nat) : (toggleAt l i).length = l.length := by
  induction l generalizing i with
  | nil => rfl
  | cons a t ih =>
    cases i with
    | zero => rfl
    | succ n => simp [toggleAt, ih]

theorem toggleAt_toggleAt (l : List Task) (i : Nat) : toggleAt (toggleAt l i) i = l := by
  induction l generalizing i with
  | nil => rfl
  | cons a t ih =>
    cases i with
    | zero => simp [toggleAt]
    | succ n => simp [toggleAt, ih]

theorem toggleAt_getElem (l : List Task) (i : Nat) :
    (toggleAt l i)[i]? = l[i]?.map fun u => { u with completed := !u.completed } := by
  induction l generalizing i with
  | nil => rfl
  | cons a t ih =>
    cases i with
    | zero => simp [toggleAt]
    | succ n => simpa [toggleAt] using ih n

theorem toggleAt_mem_title (l : List Task) (i : Nat) (t : Task)
    (h : t ∈ toggleAt l i) : ∃ u ∈ l, t.title = u.title := by
  induction l generalizing i with
  | nil => simp [toggleAt] at h
  | cons a tl ih =>
    cases i with
    | zero =>
      rcases List.mem_cons.mp h with h0 | h0
      · exact ⟨a, List.mem_cons_self a tl, by rw [h0]⟩
      · exact ⟨t, List.mem_cons_of_mem a h0, rfl⟩
    | succ n =>
      rcases List.mem_cons.mp h with h0 | h0
      · exact ⟨t, by rw [h0]; exact List.mem_cons_self a tl, by rw [h0]⟩
      · obtain ⟨u, hu, ht⟩ := ih n h0
        exact ⟨u, List.mem_cons_of_mem a hu, ht⟩

/-- A fully populated sample record of the persisted array. -/
def recA : TaskRecord :=
  { title := some "write report", description := some "for monday",
    due_date := some (.jiso 120), priority := some "HIGH", reminder := some true,
    reminder_time := some (.jiso 100), completed := some false,
    created_at := some (.jiso 10) }

/-- The task recA deserializes to. -/
def taskA : Task :=
  { title := "write report", description := "for monday", due_date := some 120,
    priority := "high", reminder := true, reminder_time := some 100,
    completed := false, created_at := 10 }

/-- A minimal sample record: only the title and created_at keys. -/
def recB : TaskRecord :=
  { title := some "buy milk", created_at := some (.jiso 11) }

/-- The task recB deserializes to. -/
def taskB : Task :=
  { title := "buy milk", description := "", due_date := none,
    priority := "medium", reminder := false, reminder_time := none,
    completed := false, created_at := 11 }

/-- A malformed record: the title key is missing, so from_dict raises
KeyError and returns None. -/
def recBad : TaskRecord := { created_at := some (.jiso 1) }

/-- C1, counterexample: when load_tasks finds the persisted file present but
its content malformed (not JSON), the file content is NOT left intact — at a
fresh manager (empty in-memory list) the JSONDecodeError handler calls
save_tasks, which rewrites the file with the serialization of the empty
store, destroying the unreadable content. -/
theorem c1_counterexample :
    (load_tasks [] (some FileContent.malformed)).2 ≠ some FileContent.malformed := by
  decide

/-- C1, amended: if load_tasks finds the persisted file present but its
content is not parseable as JSON, the error is reported, the in-memory store
proceeds with its current (at startup: empty) list, and the file is
overwritten with the serialization of that list — the unreadable content is
destroyed rather than preserved. -/
theorem c1_malformed_load (pre : List Task) :
    load_tasks pre (some FileContent.malformed)
      = (pre, some (FileContent.records (pre.map Task.to_dict))) := rfl

/-- C2, counterexample to the unrestricted claim: an array of three records,
one malformed — failing per-record deserialization because its created_at is
null, so fromisoformat(None) raises TypeError, which is not in the caught
(KeyError, ValueError) — and two valid, does NOT load to the two valid
tasks: the exception propagates out of Task.from_dict into load_tasks' outer
handler, which empties the store, so the whole load is aborted. -/
theorem c2_counterexample :
    Task.from_dict { title := some "x", created_at := some JTime.jnull } = .crash ∧
    Task.from_dict recA = .ok taskA ∧
    Task.from_dict recB = .ok taskB ∧
    (load_tasks [] (some (.records
      [{ title := some "x", created_at := some JTime.jnull }, recA, recB]))).1
      = [] :=
  ⟨by decide, by decide, by decide, by decide⟩

/-- C2, amended: for every persisted array of three records, one failing
per-record deserialization with a caught error — Task.from_dict catches
KeyError and ValueError (missing title or created_at key, empty stripped
title, unparseable timestamp string) and returns None, i.e. skip — and two
valid, in any arrangement, load_tasks yields a store holding exactly the two
valid tasks in their original order; such a malformed record is skipped and
logged rather than aborting the load. (A record failing with an uncaught
TypeError instead aborts the whole load to an empty store.) -/
theorem c2_skip_one_of_three (r1 r2 r3 : TaskRecord) (t t' : Task)
    (pre : List Task)
    (h : (Task.from_dict r1 = .skip ∧ Task.from_dict r2 = .ok t ∧ Task.from_dict r3 = .ok t')
       ∨ (Task.from_dict r1 = .ok t ∧ Task.from_dict r2 = .skip ∧ Task.from_dict r3 = .ok t')
       ∨ (Task.from_dict r1 = .ok t ∧ Task.from_dict r2 = .ok t' ∧ Task.from_dict r3 = .skip)) :
    (load_tasks pre (some (.records [r1, r2, r3]))).1 = [t, t'] := by
  rcases h with ⟨h1, h2, h3⟩ | ⟨h1, h2, h3⟩ | ⟨h1, h2, h3⟩ <;>
    simp [load_tasks, h1, h2, h3, FromDictResult.isCrash, FromDictResult.getOk]

/-- Witness for C2: a file holding a record with no title key followed by the
two valid sample records loads to exactly the two sample tasks. -/
theorem c2_skip_one_of_three_witness :
    (load_tasks [] (some (.records [recBad, recA, recB]))).1 = [taskA, taskB] :=
  c2_skip_one_of_three recBad recA recB taskA taskB []
    (Or.inl ⟨by decide, by decide, by decide⟩)

/-- C3: for every store of valid tasks and every valid task t, add_task
followed by load_tasks on the persisted file reproduces the in-memory
sequence exactly — in particular the added task comes back with its title,
description, due date, priority, reminder flag, reminder time, completed
flag and created-at all equal (round-trip of to_dict/from_dict through the
file). -/
theorem c3_add_load_roundtrip (m : TaskManager) (t : Task)
    (hm : ∀ u ∈ m.tasks, u.WF) (ht : t.WF) :
    (load_tasks [] ((add_task m t).1.file)).1 = m.tasks ++ [t] := by
  have hfile : (add_task m t).1.file
      = some (.records ((m.tasks ++ [t]).map Task.to_dict)) := rfl
  have hall : ∀ u ∈ m.tasks ++ [t], u.WF := by
    intro u hu
    rcases List.mem_append.mp hu with h | h
    · exact hm u h
    · rw [List.mem_singleton.mp h]
      exact ht
  rw [hfile, load_tasks_of_wf [] (m.tasks ++ [t]) hall]

/-- Witness for C3 at a concrete one-task store and sample task. -/
theorem c3_add_load_roundtrip_witness :
    (load_tasks [] ((add_task ⟨[taskA], some (.records [recA])⟩ taskB).1.file)).1
      = [taskA] ++ [taskB] :=
  c3_add_load_roundtrip ⟨[taskA], some (.records [recA])⟩ taskB
    (by decide) (by decide)

/-- C4: for every store and index i: when 0 <= i < length, remove_task
returns true and the listed sequence is the original with exactly the entry
at position i omitted — length down by one and the order of the remaining
entries preserved (it equals take i ++ drop (i+1)); when i is out of range,
remove_task returns false and the store is unchanged. -/
theorem c4_remove_spec (m : TaskManager) (i : Int) :
    (0 ≤ i ∧ i < (m.tasks.length : Int) →
      (remove_task m i).2 = true ∧
      (get_tasks (remove_task m i).1 true).length + 1 = m.tasks.length ∧
      get_tasks (remove_task m i).1 true
        = m.tasks.take i.toNat ++ m.tasks.drop (i.toNat + 1)) ∧
    (¬(0 ≤ i ∧ i < (m.tasks.length : Int)) →
      (remove_task m i).2 = false ∧ (remove_task m i).1 = m) := by
  constructor
  · intro h
    have hlt : i.toNat < m.tasks.length := by omega
    have hr : remove_task m i
        = (save_tasks { m with tasks := m.tasks.eraseIdx i.toNat }, true) := by
      unfold remove_task
      rw [if_pos h]
    refine ⟨by rw [hr], ?_, ?_⟩
    · rw [hr]
      show (m.tasks.eraseIdx i.toNat).length + 1 = m.tasks.length
      rw [List.length_eraseIdx_of_lt hlt]
      omega
    · rw [hr]
      show m.tasks.eraseIdx i.toNat = _
      exact List.eraseIdx_eq_take_drop_succ m.tasks i.toNat
  · intro h
    have hr : remove_task m i = (m, false) := by
      unfold remove_task
      rw [if_neg h]
    exact ⟨by rw [hr], by rw [hr]⟩

/-- Witness for C4 at a two-task store, applied at the in-range index 1 and
the out-of-range index 2. -/
theorem c4_remove_spec_witness :
    ((0 ≤ (1 : Int) ∧ (1 : Int) < (([taskA, taskB] : List Task).length : Int)) ∧
      get_tasks (remove_task ⟨[taskA, taskB], none⟩ 1).1 true = [taskA]) ∧
    (remove_task ⟨[taskA, taskB], none⟩ 2).1 = ⟨[taskA, taskB], none⟩ :=
  ⟨⟨by decide, ((c4_remove_spec ⟨[taskA, taskB], none⟩ 1).1 (by decide)).2.2⟩,
    ((c4_remove_spec ⟨[taskA, taskB], none⟩ 2).2 (by decide)).2⟩

/-- C5: toggling an in-range index succeeds, changes exactly the completed
flag of the task at that position (every other field of it unchanged, as the
getElem equation shows), and applying the toggle twice returns the task list
— hence the task at position i — to its original state; both calls return
true. -/
theorem c5_toggle_involution (m : TaskManager) (i : Int)
    (h : 0 ≤ i ∧ i < (m.tasks.length : Int)) :
    (toggle_task_completion m i).2 = true ∧
    (toggle_task_completion (toggle_task_completion m i).1 i).2 = true ∧
    ((toggle_task_completion m i).1.tasks[i.toNat]?
      = m.tasks[i.toNat]?.map fun u => { u with completed := !u.completed }) ∧
    (toggle_task_completion (toggle_task_completion m i).1 i).1.tasks = m.tasks := by
  have h1 : toggle_task_completion m i
      = (save_tasks { m with tasks := toggleAt m.tasks i.toNat }, true) := by
    unfold toggle_task_completion
    rw [if_pos h]
  have h2 : toggle_task_completion (toggle_task_completion m i).1 i
      = (save_tasks { m with tasks := toggleAt (toggleAt m.tasks i.toNat) i.toNat },
          true) := by
    rw [h1]
    unfold toggle_task_completion
    rw [if_pos ⟨h.1,
      (by rw [toggleAt_length]; exact h.2 :
        i < ((toggleAt m.tasks i.toNat).length : Int))⟩]
    rfl
  refine ⟨by rw [h1], by rw [h2], ?_, ?_⟩
  · rw [h1]
    exact toggleAt_getElem m.tasks i.toNat
  · rw [h2]
    show toggleAt (toggleAt m.tasks i.toNat) i.toNat = m.tasks
    exact toggleAt_toggleAt m.tasks i.toNat

/-- Witness for C5 at a two-task store and index 1. -/
theorem c5_toggle_involution_witness :
    (0 ≤ (1 : Int) ∧ (1 : Int) < (([taskA, taskB] : List Task).length : Int)) ∧
    (toggle_task_completion (toggle_task_completion ⟨[taskA, taskB], none⟩ 1).1 1).1.tasks
      = [taskA, taskB] :=
  ⟨by decide, (c5_toggle_involution ⟨[taskA, taskB], none⟩ 1 (by decide)).2.2.2⟩

/-- C6: a task is in the notification set of a poll at time now exactly when
it is in the store with the reminder flag set, a reminder time present, the
completed flag false, and the reminder time at most now. In particular a
task with reminder=true and a past reminder_time is included while it stays
uncompleted, and any task with completed=true is excluded no matter its
reminder_time. -/
theorem c6_reminder_set (tasks : List Task) (now : Nat) (t : Task) :
    t ∈ check_reminders true tasks now ↔
      t ∈ tasks ∧ t.reminder = true ∧ t.completed = false ∧
        ∃ rt, t.reminder_time = some rt ∧ rt ≤ now := by
  unfold check_reminders
  rw [if_pos rfl, List.mem_filter]
  cases hrt : t.reminder_time <;> simp [hrt, and_assoc]

theorem normPriority_of_not_mem (p : String)
    (h : ¬(plower p = "low" ∨ plower p = "medium" ∨ plower p = "high")) :
    normPriority p = "medium" := by
  by_cases hpe : p = ""
  · subst hpe
    decide
  · unfold normPriority lowerOrDefault
    rw [if_neg hpe, if_neg h]

theorem normPriority_of_mem (p : String)
    (h : plower p = "low" ∨ plower p = "medium" ∨ plower p = "high") :
    normPriority p = plower p := by
  have hpe : p ≠ "" := by
    intro he
    subst he
    exact absurd h (by decide)
  unfold normPriority lowerOrDefault
  rw [if_neg hpe, if_pos h]

/-- C7: the priority of every constructed task is normPriority of the given
value; when the case-normalized value is outside the enum (including the
empty string — and a missing argument defaults to "medium") the priority is
"medium", when it is inside the enum the priority is the lowercased value,
and every constructed task's priority is one of the three enum values. -/
theorem c7_priority_normalization (title description : String) (dd : Option Nat)
    (p : String) (rem : Bool) (rt : Option Nat) (now : Nat) (t : Task)
    (h : Task.init title description dd p rem rt now = some t) :
    t.priority = normPriority p ∧
    (¬(plower p = "low" ∨ plower p = "medium" ∨ plower p = "high") →
      t.priority = "medium") ∧
    ((plower p = "low" ∨ plower p = "medium" ∨ plower p = "high") →
      t.priority = plower p) ∧
    (t.priority = "low" ∨ t.priority = "medium" ∨ t.priority = "high") := by
  have hp : t.priority = normPriority p := by
    unfold Task.init at h
    split at h
    · exact absurd h (by simp)
    · simp only [Option.some.injEq] at h
      subst h
      rfl
  refine ⟨hp, ?_, ?_, hp ▸ normPriority_mem p⟩
  · intro hout
    rw [hp, normPriority_of_not_mem p hout]
  · intro hin
    rw [hp, normPriority_of_mem p hin]

/-- Witness for C7: constructing with priority "URGENT" (outside the enum)
yields priority "medium". -/
theorem c7_priority_normalization_witness :
    (Task.init "pay rent" "" none "URGENT" false none 0
      = some ⟨"pay rent", "", none, "medium", false, none, false, 0⟩) ∧
    ¬(plower "URGENT" = "low" ∨ plower "URGENT" = "medium" ∨
      plower "URGENT" = "high") ∧
    (⟨"pay rent", "", none, "medium", false, none, false, 0⟩ : Task).priority
      = "medium" :=
  ⟨by decide, by decide,
    (c7_priority_normalization "pay rent" "" none "URGENT" false none 0
      ⟨"pay rent", "", none, "medium", false, none, false, 0⟩ (by decide)).2.1
      (by decide)⟩

/-- C8: the title invariant. Construction with a title that is empty after
stripping fails (ValueError); every task produced by the constructor or by
per-record deserialization has a non-empty stripped title; and the invariant
is preserved by add (of a satisfying task), remove, toggle, list and load. -/
theorem c8_title_invariant :
    (∀ title description dd p rem rt now, pstrip title = "" →
      Task.init title description dd p rem rt now = none) ∧
    (∀ title description dd p rem rt now t,
      Task.init title description dd p rem rt now = some t →
        pstrip t.title ≠ "") ∧
    (∀ r t, Task.from_dict r = .ok t → pstrip t.title ≠ "") ∧
    (∀ m t, TitleInv m.tasks → pstrip t.title ≠ "" →
      TitleInv ((add_task m t).1.tasks)) ∧
    (∀ m i, TitleInv m.tasks → TitleInv ((remove_task m i).1.tasks)) ∧
    (∀ m i, TitleInv m.tasks → TitleInv ((toggle_task_completion m i).1.tasks)) ∧
    (∀ m b, TitleInv m.tasks → TitleInv (get_tasks m b)) ∧
    (∀ pre f, TitleInv pre → TitleInv ((load_tasks pre f).1)) := by
  have hwf : ∀ t : Task, t.WF → pstrip t.title ≠ "" := by
    intro t ht
    rw [ht.1]
    exact ht.2.1
  refine ⟨?_, ?_, ?_, ?_, ?_, ?_, ?_, ?_⟩
  · intro title description dd p rem rt now h
    unfold Task.init
    rw [if_pos h]
  · intro title description dd p rem rt now t h
    exact hwf t (Task.init_wf title description dd p rem rt now t h)
  · intro r t h
    exact hwf t (Task.from_dict_wf r t h)
  · intro m t hm ht u hu
    rcases List.mem_append.mp hu with h0 | h0
    · exact hm u h0
    · rw [List.mem_singleton.mp h0]
      exact ht
  · intro m i hm u hu
    unfold remove_task at hu
    split at hu
    · exact hm u (List.eraseIdx_subset m.tasks i.toNat hu)
    · exact hm u hu
  · intro m i hm u hu
    unfold toggle_task_completion at hu
    split at hu
    · obtain ⟨v, hv, huv⟩ := toggleAt_mem_title m.tasks i.toNat u hu
      rw [huv]
      exact hm v hv
    · exact hm u hu
  · intro m b hm u hu
    unfold get_tasks at hu
    split at hu
    · exact hm u hu
    · exact hm u (List.mem_filter.mp hu).1
  · intro pre f hpre
    match f with
    | none => exact hpre
    | some .malformed => exact hpre
    | some .nonArray => intro u hu; simp [load_tasks] at hu
    | some (.records rs) =>
      intro u hu
      by_cases hc : (rs.any fun r => (Task.from_dict r).isCrash) = true
      · have heq : load_tasks pre (some (.records rs)) = ([], some (.records rs)) := by
          show (if (rs.any fun r => (Task.from_dict r).isCrash) = true
              then _ else _) = _
          rw [if_pos hc]
        rw [heq] at hu
        simp at hu
      · have heq : load_tasks pre (some (.records rs))
            = (rs.filterMap fun r => (Task.from_dict r).getOk,
                some (.records rs)) := by
          show (if (rs.any fun r => (Task.from_dict r).isCrash) = true
              then _ else _) = _
          rw [if_neg hc]
        rw [heq] at hu
        simp only [List.mem_filterMap] at hu
        obtain ⟨r, _, hget⟩ := hu
        have hok : Task.from_dict r = .ok u := by
          cases hfd : Task.from_dict r with
          | ok v =>
            rw [hfd] at hget
            simp only [getOk_ok, Option.some.injEq] at hget
            rw [hget]
          | skip =>
            rw [hfd] at hget
            exact absurd hget (by simp [FromDictResult.getOk])
          | crash =>
            rw [hfd] at hget
            exact absurd hget (by simp [FromDictResult.getOk])
        exact hwf u (Task.from_dict_wf r u hok)

/-- Witness for C8, checking the whitespace-title rejection conjunct and the
add-preservation conjunct at concrete inputs. -/
theorem c8_title_invariant_witness :
    (pstrip "  " = "" ∧ Task.init "  " "" none "low" false none 0 = none) ∧
    (TitleInv [taskA] ∧ pstrip taskB.title ≠ "" ∧
      TitleInv ((add_task ⟨[taskA], none⟩ taskB).1.tasks)) :=
  ⟨⟨by decide, c8_title_invariant.1 "  " "" none "low" false none 0 (by decide)⟩,
    ⟨by decide, by decide,
      c8_title_invariant.2.2.2.1 ⟨[taskA], none⟩ taskB (by decide) (by decide)⟩⟩

/-- C9: every mutating operation persists synchronously before returning:
add_task always returns true with the file equal to the serialization of the
new in-memory sequence, and remove_task and toggle_task_completion do the
same on every in-range index. -/
theorem c9_persist_on_mutation (m : TaskManager) (t : Task) (i : Int) :
    ((add_task m t).2 = true ∧ (add_task m t).1.file
      = some (.records ((add_task m t).1.tasks.map Task.to_dict))) ∧
    (0 ≤ i ∧ i < (m.tasks.length : Int) →
      (remove_task m i).2 = true ∧ (remove_task m i).1.file
        = some (.records ((remove_task m i).1.tasks.map Task.to_dict))) ∧
    (0 ≤ i ∧ i < (m.tasks.length : Int) →
      (toggle_task_completion m i).2 = true ∧ (toggle_task_completion m i).1.file
        = some (.records ((toggle_task_completion m i).1.tasks.map Task.to_dict))) := by
  refine ⟨⟨rfl, rfl⟩, ?_, ?_⟩ <;> intro h
  · unfold remove_task
    rw [if_pos h]
    exact ⟨rfl, rfl⟩
  · unfold toggle_task_completion
    rw [if_pos h]
    exact ⟨rfl, rfl⟩

/-- Witness for C9 at a one-task store and index 0. -/
theorem c9_persist_on_mutation_witness :
    (0 ≤ (0 : Int) ∧ (0 : Int) < (([taskA] : List Task).length : Int)) ∧
    (remove_task ⟨[taskA], none⟩ 0).1.file
      = some (.records ((remove_task ⟨[taskA], none⟩ 0).1.tasks.map Task.to_dict)) ∧
    (toggle_task_completion ⟨[taskA], none⟩ 0).1.file
      = some (.records
          ((toggle_task_completion ⟨[taskA], none⟩ 0).1.tasks.map Task.to_dict)) :=
  ⟨by decide,
    ((c9_persist_on_mutation ⟨[taskA], none⟩ taskA 0).2.1 (by decide)).2,
    ((c9_persist_on_mutation ⟨[taskA], none⟩ taskA 0).2.2 (by decide)).2⟩

/-- C10: per-record deserialization requires only the title and created_at
keys to be present and valid: a record carrying exactly those two keys
deserializes to a task with the stripped title, description "", priority
"medium", reminder false, completed false and no due date or reminder time;
a record missing the title key or the created_at key is skipped. -/
theorem c10_record_defaults :
    (∀ (title : String) (ca : Nat), pstrip title ≠ "" →
      Task.from_dict { title := some title, created_at := some (.jiso ca) }
        = .ok { title := pstrip title, description := "", due_date := none,
                priority := "medium", reminder := false, reminder_time := none,
                completed := false, created_at := ca }) ∧
    (∀ r : TaskRecord, r.title = none → Task.from_dict r = .skip) ∧
    (∀ r : TaskRecord, r.created_at = none → Task.from_dict r = .skip) := by
  refine ⟨?_, ?_, ?_⟩
  · intro title ca h
    unfold Task.from_dict Task.init
    dsimp only [parseOptTime]
    rw [if_neg h]
    simp [show normPriority "medium" = "medium" from by decide,
      show pstrip "" = "" from by decide]
  · intro r hr
    unfold Task.from_dict
    rw [hr]
  · intro r hr
    unfold Task.from_dict
    split
    · rfl
    · split
      · rfl
      · split
        · rfl
        · split
          · rfl
          · rw [hr]

/-- Witness for C10: a two-key record deserializes with the defaults, and a
record without a title key is skipped. -/
theorem c10_record_defaults_witness :
    pstrip "buy milk" ≠ "" ∧
    Task.from_dict { title := some "buy milk", created_at := some (.jiso 11) }
      = .ok { title := pstrip "buy milk", description := "", due_date := none,
              priority := "medium", reminder := false, reminder_time := none,
              completed := false, created_at := 11 } ∧
    Task.from_dict { created_at := some (.jiso 1) } = .skip :=
  ⟨by decide, c10_record_defaults.1 "buy milk" 11 (by decide),
    c10_record_defaults.2.1 { created_at := some (.jiso 1) } rfl⟩

end TaskTrackr
